import Mathlib

/-! Verification development for the pong ball/collision core
(`src/pong/src/ball.rs`, `src/pong/src/paddle.rs`, `src/pong/src/common.rs`).

The Rust code is shallowly embedded over exact rational arithmetic (`ℚ` in
place of `f32`).  Floating-point rounding is not modelled; all geometric
identities that the source establishes up to floating tolerance hold exactly
here.  `f32::EPSILON` (the constant compared against in bevy's
`Ray2d::intersect_plane`) is kept as the exact rational `2 ^ (-23)`.
Rust `panic!` / `.unwrap()` is modelled by returning `Option.none`.
Angular rates that the source expresses as multiples of `PI` are stored as
their rational coefficients of pi (only ever compared, never evaluated).
-/

namespace Pong

/-- Two-dimensional vector over exact rationals, standing in for bevy `Vec2`. -/
structure Vec2 where
  x : ℚ
  y : ℚ
deriving DecidableEq

instance : Add Vec2 := ⟨fun a b => ⟨a.x + b.x, a.y + b.y⟩⟩

instance : Sub Vec2 := ⟨fun a b => ⟨a.x - b.x, a.y - b.y⟩⟩

instance : SMul ℚ Vec2 := ⟨fun c v => ⟨c * v.x, c * v.y⟩⟩

theorem Vec2.add_def (a b : Vec2) : a + b = ⟨a.x + b.x, a.y + b.y⟩ := rfl

theorem Vec2.sub_def (a b : Vec2) : a - b = ⟨a.x - b.x, a.y - b.y⟩ := rfl

theorem Vec2.smul_def (c : ℚ) (v : Vec2) : c • v = ⟨c * v.x, c * v.y⟩ := rfl

/-- Dot product of two vectors (bevy `Vec2::dot`). -/
def Vec2.dot (a b : Vec2) : ℚ := a.x * b.x + a.y * b.y

/-- Squared euclidean length of a vector (bevy `Vec2::length_squared`). -/
def Vec2.normSq (v : Vec2) : ℚ := v.dot v

/-- Mirror `d` about the surface with unit normal `n`
(bevy `Vec2::reflect`: `self - 2.0 * self.dot(normal) * normal`). -/
def Vec2.reflect (d n : Vec2) : Vec2 := d - (2 * d.dot n) • n

/-- Three-dimensional vector, standing in for bevy `Vec3`. -/
structure Vec3 where
  x : ℚ
  y : ℚ
  z : ℚ
deriving DecidableEq

/-- The `xy` projection of a `Vec3` (bevy `Vec3::xy`). -/
def Vec3.xy (v : Vec3) : Vec2 := ⟨v.x, v.y⟩

/-- Exact value of `f32::EPSILON`, the tolerance used by bevy's
`Ray2d::intersect_plane`. -/
def EPS : ℚ := 1 / 2 ^ 23

/-- Ray-plane intersection distance, from bevy `Ray2d::intersect_plane`:
the denominator is `plane.normal.dot(*self.direction)`; when its magnitude
exceeds `f32::EPSILON`, the signed distance
`(plane_origin - self.origin).dot(*plane.normal) / denominator` is returned
provided it exceeds `f32::EPSILON`; otherwise no intersection. -/
def intersect_plane (rayO rayD plane_origin normal : Vec2) : Option ℚ :=
  let denominator := normal.dot rayD
  if EPS < |denominator| then
    let distance := (plane_origin - rayO).dot normal / denominator
    if EPS < distance then some distance else none
  else none

/-- Point along a ray at a given distance (bevy `Ray2d::get_point`). -/
def get_point (rayO rayD : Vec2) (distance : ℚ) : Vec2 := rayO + distance • rayD

/-- A point returned by `intersect_plane` lies exactly on the plane. -/
theorem intersect_plane_on_plane (rayO rayD po n : Vec2) (d : ℚ)
    (h : intersect_plane rayO rayD po n = some d) :
    (get_point rayO rayD d - po).dot n = 0 := by
  unfold intersect_plane at h
  by_cases hden : EPS < |n.dot rayD|
  · simp only [hden, if_true] at h
    by_cases hdist : EPS < (po - rayO).dot n / n.dot rayD
    · simp only [hdist, if_true, Option.some.injEq] at h
      have hne : n.dot rayD ≠ 0 := by
        intro h0
        rw [h0] at hden
        simp [EPS] at hden
        exact absurd hden (by norm_num)
      subst h
      unfold get_point Vec2.dot at *
      simp only [Vec2.add_def, Vec2.smul_def, Vec2.sub_def] at *
      field_simp
      ring
    · simp [hdist] at h
  · simp [hden] at h

/-- A distance returned by `intersect_plane` is strictly positive
(greater than `EPS`). -/
theorem intersect_plane_pos (rayO rayD po n : Vec2) (d : ℚ)
    (h : intersect_plane rayO rayD po n = some d) : EPS < d := by
  unfold intersect_plane at h
  by_cases hden : EPS < |n.dot rayD|
  · simp only [hden, if_true] at h
    by_cases hdist : EPS < (po - rayO).dot n / n.dot rayD
    · simp only [hdist, if_true, Option.some.injEq] at h
      rw [← h]
      exact hdist
    · simp [hdist] at h
  · simp [hden] at h

/-- Reflection about a unit normal preserves the squared length. -/
theorem reflect_normSq (d n : Vec2) (hn : n.normSq = 1) :
    (d.reflect n).normSq = d.normSq := by
  obtain ⟨dx, dy⟩ := d
  obtain ⟨nx, ny⟩ := n
  simp only [Vec2.normSq, Vec2.dot, Vec2.reflect, Vec2.sub_def, Vec2.smul_def] at *
  linear_combination (4 * (dx * nx + dy * ny) ^ 2) * hn

/-- An sRGB color from 8-bit channels (bevy `Color::srgb_u8`). -/
structure Color where
  r : ℕ
  g : ℕ
  b : ℕ
deriving DecidableEq

/-- The `BallColor` from `ball.rs`: a solid color or a blinking color sequence.
Blink periods (Rust `Duration`) are modelled as rational seconds. -/
inductive BallColor where
  | Solid (color : Color)
  | Blinking (blink_time : ℚ) (colors : List Color)
deriving DecidableEq

/-- The `CurveLevelCfg` from `ball.rs`.  The two angular rates are stored as their
rational coefficients of pi (the source writes them as multiples of `PI`). -/
structure CurveLevelCfg where
  color : BallColor
  rotate_pi_per_sec : ℚ
  curve_pi_per_sec : ℚ
deriving DecidableEq

/-- The `BALL_CURVE_CFG_NONE` from `ball.rs`. -/
def BALL_CURVE_CFG_NONE : CurveLevelCfg :=
  ⟨BallColor.Solid ⟨0, 255, 0⟩, 0, 0⟩

/-- The `BALL_CURVE_CFG_L1` from `ball.rs` (rates `2.0 * PI`, `0.1 * PI`). -/
def BALL_CURVE_CFG_L1 : CurveLevelCfg :=
  ⟨BallColor.Solid ⟨0, 255, 0⟩, 2, 1 / 10⟩

/-- The `BALL_CURVE_CFG_L2` from `ball.rs` (rates `3.0 * PI`, `0.3 * PI`). -/
def BALL_CURVE_CFG_L2 : CurveLevelCfg :=
  ⟨BallColor.Solid ⟨255, 255, 0⟩, 3, 3 / 10⟩

/-- The `BALL_CURVE_CFG_L3` from `ball.rs`: blinking at 230 ms between green and
yellow (rates `5.0 * PI`, `0.6 * PI`). -/
def BALL_CURVE_CFG_L3 : CurveLevelCfg :=
  ⟨BallColor.Blinking (23 / 100) [⟨0, 255, 0⟩, ⟨255, 255, 0⟩], 5, 6 / 10⟩

/-- The `BALL_CURVE_LEVELS` from `ball.rs`: the fixed 4-entry configuration
table. -/
def BALL_CURVE_LEVELS : List CurveLevelCfg :=
  [BALL_CURVE_CFG_NONE, BALL_CURVE_CFG_L1, BALL_CURVE_CFG_L2, BALL_CURVE_CFG_L3]

/-- The `CurveDir` from `ball.rs`. -/
inductive CurveDir where
  | None
  | Clockwise
  | CounterClockwise
deriving DecidableEq

/-- Minimal model of bevy `Timer`, covering exactly the operations `ball.rs`
performs on it: `Timer::default()`, `Timer::new(d, TimerMode::Repeating)` and
`Timer::pause()`. -/
structure Timer where
  duration : ℚ
  elapsed : ℚ
  paused : Bool
  repeating : Bool
deriving DecidableEq

/-- The `Timer::default()`: zero duration, non-repeating, running. -/
def Timer.default : Timer := ⟨0, 0, false, false⟩

/-- The `Timer::new(d, TimerMode::Repeating)`. -/
def Timer.new (d : ℚ) : Timer := ⟨d, 0, false, true⟩

/-- The `Timer::pause()`. -/
def Timer.pause (t : Timer) : Timer := { t with paused := true }

/-- The `CurveState` from `ball.rs`. -/
structure CurveState where
  dir : CurveDir
  cfg_idx : ℕ
  color_timer : Timer
  color_idx : ℕ
deriving DecidableEq

/-- The `CurveState::default()`. -/
def CurveState.default : CurveState := ⟨CurveDir.None, 0, Timer.default, 0⟩

/-- The `CurveState::apply_curve` from `ball.rs`.  `Option.none` models the panic
of the `BALL_CURVE_LEVELS.get(self.cfg_idx).unwrap()` call. -/
def apply_curve (s : CurveState) (dir : CurveDir) : Option CurveState :=
  let prev_state := (s.dir, s.cfg_idx)
  let s1 :=
    if dir = CurveDir.None then
      { s with dir := CurveDir.None, cfg_idx := 0 }
    else if dir = s.dir then
      if s.cfg_idx < BALL_CURVE_LEVELS.length - 1 then
        { s with cfg_idx := s.cfg_idx + 1 }
      else s
    else
      { s with dir := dir, cfg_idx := 1 }
  if prev_state ≠ (s1.dir, s1.cfg_idx) then
    match BALL_CURVE_LEVELS.get? s1.cfg_idx with
    | none => none
    | some cfg =>
      match cfg.color with
      | BallColor.Solid _ => some { s1 with color_timer := s1.color_timer.pause }
      | BallColor.Blinking blink_time _ =>
        some { s1 with color_timer := Timer.new blink_time, color_idx := 0 }
  else some s1

/-- The `PlayerId` from `common.rs`. -/
inductive PlayerId where
  | Player1
  | Player2
deriving DecidableEq

/-- The `MoveDirection` from `paddle.rs`. -/
inductive MoveDirection where
  | None
  | Up
  | Down
deriving DecidableEq

/-- The `Paddle` component from `paddle.rs`. -/
structure Paddle where
  player : PlayerId
  move_dir : MoveDirection
deriving DecidableEq

/-- bevy `Transform`, restricted to the fields the sources touch.  `rotation`
is the accumulated z-rotation angle with `0` standing for `Quat::IDENTITY`. -/
structure Transform where
  translation : Vec3
  rotation : ℚ
  scale : Vec3
deriving DecidableEq

/-- One entry of the `AllPaddleHitboxes` query: a `(&Paddle, &Transform)`
pair. -/
def PaddleEntry : Type := Paddle × Transform

instance : DecidableEq PaddleEntry := instDecidableEqProd

/-- The `PaddleHitbox::from_query` from `paddle.rs`: scan the query items and
return the first whose `Paddle` component matches the requested player;
`Option.none` models the panic when no item matches. -/
def from_query (query : List PaddleEntry) (player : PlayerId) : Option PaddleEntry :=
  match query with
  | [] => none
  | item :: rest => if item.1.player = player then some item else from_query rest player

/-- The `PaddleHitbox::plane_origin` from `paddle.rs`: the paddle translation
offset along x by `+scale.x` for Player1 and `-scale.x` for Player2. -/
def plane_origin (hb : PaddleEntry) : Vec2 :=
  let x_offset : ℚ :=
    match hb.1.player with
    | PlayerId.Player1 => hb.2.scale.x
    | PlayerId.Player2 => -hb.2.scale.x
  hb.2.translation.xy + ⟨x_offset, 0⟩

/-- The `PaddleHitbox::top_y` from `paddle.rs`. -/
def top_y (hb : PaddleEntry) : ℚ := hb.2.translation.y + hb.2.scale.y / 2

/-- The `PaddleHitbox::bot_y` from `paddle.rs`. -/
def bot_y (hb : PaddleEntry) : ℚ := hb.2.translation.y - hb.2.scale.y / 2

/-- The `PaddleHitbox::movement_dir` from `paddle.rs`. -/
def movement_dir (hb : PaddleEntry) : MoveDirection := hb.1.move_dir

/-- The `ARENA_WIDTH` from `common.rs`. -/
def ARENA_WIDTH : ℚ := 16

/-- The `ARENA_HEIGHT` from `common.rs`. -/
def ARENA_HEIGHT : ℚ := 9

/-- The `Z_FOREGROUND` from `common.rs`. -/
def Z_FOREGROUND : ℚ := 1

/-- The `PADDLE_HEIGHT` from `paddle.rs`: `0.15 * ARENA_HEIGHT`. -/
def PADDLE_HEIGHT : ℚ := (15 / 100) * ARENA_HEIGHT

/-- The `PADDLE_WIDTH` from `paddle.rs`: `PADDLE_HEIGHT * 0.15` (the aspect
constant). -/
def PADDLE_WIDTH : ℚ := PADDLE_HEIGHT * (15 / 100)

/-- The `BALL_SIZE` from `ball.rs`: `0.02 * ARENA_HEIGHT`. -/
def BALL_SIZE : ℚ := (2 / 100) * ARENA_HEIGHT

/-- The `BALL_OFF_SCREEN_X_MAG` from `ball.rs`:
`(ARENA_WIDTH / 2) - (BALL_SIZE / 2)`. -/
def BALL_OFF_SCREEN_X_MAG : ℚ := ARENA_WIDTH / 2 - BALL_SIZE / 2

/-- The `Ball` component from `ball.rs`. -/
structure Ball where
  movement_dir : Vec2
  paused : Bool
  curve : CurveState
deriving DecidableEq

/-- The `BallOffScreen` message from `ball.rs`. -/
inductive BallOffScreen where
  | Left
  | Right
deriving DecidableEq

/-- The candidate wall chosen by `collide_once`: the top wall plane (inset by
the ball radius, normal `NEG_Y`) when moving with positive y, else the bottom
wall plane (normal `Y`).  Returns `(plane origin, plane normal)`. -/
def wall_cfg (dirY ball_rad : ℚ) : Vec2 × Vec2 :=
  if 0 < dirY then
    (⟨0, ARENA_HEIGHT / 2 - ball_rad⟩, ⟨0, -1⟩)
  else
    (⟨0, -(ARENA_HEIGHT / 2) + ball_rad⟩, ⟨0, 1⟩)

/-- The paddle side `collide_once` tests: Player2 (right) when moving with
positive x, else Player1 (left). -/
def ball_side (dirX : ℚ) : PlayerId :=
  if 0 < dirX then PlayerId.Player2 else PlayerId.Player1

/-- The paddle-contact-to-spin mapping inlined in `collide_once`'s two
`match hitbox.movement_dir()` expressions: for the Player2 (right) paddle
`Up ↦ CounterClockwise`, `Down ↦ Clockwise`; mirrored for Player1 (left). -/
def paddle_spin (player : PlayerId) (md : MoveDirection) : CurveDir :=
  match player, md with
  | PlayerId.Player2, MoveDirection.Up => CurveDir.CounterClockwise
  | PlayerId.Player2, MoveDirection.Down => CurveDir.Clockwise
  | PlayerId.Player2, MoveDirection.None => CurveDir.None
  | PlayerId.Player1, MoveDirection.Up => CurveDir.Clockwise
  | PlayerId.Player1, MoveDirection.Down => CurveDir.CounterClockwise
  | PlayerId.Player1, MoveDirection.None => CurveDir.None

/-- The paddle candidate data built by `collide_once`: plane origin offset
for the ball radius, plane normal, paddle bottom/top offset for the ball
radius, and the spin applied on contact. -/
structure PaddleCfg where
  origin : Vec2
  normal : Vec2
  botOff : ℚ
  topOff : ℚ
  spin : CurveDir
deriving DecidableEq

/-- The paddle tuple of `collide_once` for a given side and hitbox. -/
def paddle_cfg (side : PlayerId) (hb : PaddleEntry) (ball_rad : ℚ) : PaddleCfg :=
  match side with
  | PlayerId.Player2 =>
    ⟨plane_origin hb - ⟨ball_rad, 0⟩, ⟨-1, 0⟩,
      bot_y hb - ball_rad, top_y hb + ball_rad,
      paddle_spin PlayerId.Player2 (movement_dir hb)⟩
  | PlayerId.Player1 =>
    ⟨plane_origin hb + ⟨ball_rad, 0⟩, ⟨1, 0⟩,
      bot_y hb - ball_rad, top_y hb + ball_rad,
      paddle_spin PlayerId.Player1 (movement_dir hb)⟩

/-- The `Collision` record local to `collide_once`: distance to the impact
point, the collided plane's normal, the spin to apply if this is a paddle
collision, and the cached impact point when already computed. -/
structure Collision where
  dist : ℚ
  normal : Vec2
  curve : Option CurveDir
  cached : Option Vec2
deriving DecidableEq

/-- The paddle-candidate computation of `collide_once`: intersect the ray
with the paddle plane, accept only within the travel budget and with the
impact y inside the (radius-extended) paddle extent. -/
def paddle_candidate (move_dist : ℚ) (rayO rayD : Vec2) (pc : PaddleCfg) :
    Option Collision :=
  match intersect_plane rayO rayD pc.origin pc.normal with
  | some dist =>
    if dist ≤ move_dist then
      let impact_point := get_point rayO rayD dist
      if pc.botOff ≤ impact_point.y ∧ impact_point.y ≤ pc.topOff then
        some ⟨dist, pc.normal, some pc.spin, some impact_point⟩
      else none
    else none
  | none => none

/-- The wall-candidate computation of `collide_once`: intersect the ray with
the wall plane, accept only within the travel budget. -/
def wall_candidate (move_dist : ℚ) (rayO rayD : Vec2) (w : Vec2 × Vec2) :
    Option Collision :=
  match intersect_plane rayO rayD w.1 w.2 with
  | some dist =>
    if dist ≤ move_dist then some ⟨dist, w.2, none, none⟩ else none
  | none => none

/-- The `apply_collision` closure of `collide_once`: relocate the ball to the
impact point (with translation z set to 0 by `extend(0f32)`), reflect the
movement direction about the collision normal, and feed the spin into
`apply_curve` for paddle collisions.  `Option.none` propagates the panic
inside `apply_curve`. -/
def apply_collision (rayO rayD : Vec2) (ball : Ball) (tf : Transform)
    (c : Collision) : Option (Ball × Transform × ℚ) :=
  let impact_point := c.cached.getD (get_point rayO rayD c.dist)
  let tf1 : Transform := { tf with translation := ⟨impact_point.x, impact_point.y, 0⟩ }
  let newdir := ball.movement_dir.reflect c.normal
  match c.curve with
  | none => some ({ ball with movement_dir := newdir }, tf1, c.dist)
  | some curve_dir =>
    match apply_curve ball.curve curve_dir with
    | none => none
    | some cs => some ({ ball with movement_dir := newdir, curve := cs }, tf1, c.dist)

/-- The `collide_once` from `ball.rs`.  Returns `Option.none` on a panic (missing
paddle in `from_query`, or inside `apply_curve`); otherwise returns the
updated ball and transform and `some dist` when a collision was applied
(`none` when no candidate was within budget). -/
def collide_once (move_dist : ℚ) (ball : Ball) (ball_tf : Transform)
    (paddles : List PaddleEntry) : Option (Ball × Transform × Option ℚ) :=
  let ball_rad := ball_tf.scale.x / 2
  let wall := wall_cfg ball.movement_dir.y ball_rad
  let side := ball_side ball.movement_dir.x
  match from_query paddles side with
  | none => none
  | some hb =>
    let pc := paddle_cfg side hb ball_rad
    let rayO := ball_tf.translation.xy
    let rayD := ball.movement_dir
    let paddle_collision := paddle_candidate move_dist rayO rayD pc
    let wall_collision := wall_candidate move_dist rayO rayD wall
    match paddle_collision, wall_collision with
    | some pad_imp, some wall_imp =>
      if pad_imp.dist < wall_imp.dist then
        (apply_collision rayO rayD ball ball_tf pad_imp).map
          (fun r => (r.1, r.2.1, some r.2.2))
      else if wall_imp.dist < pad_imp.dist then
        (apply_collision rayO rayD ball ball_tf wall_imp).map
          (fun r => (r.1, r.2.1, some r.2.2))
      else
        match apply_collision rayO rayD ball ball_tf wall_imp with
        | none => none
        | some (b1, t1, _) =>
          (apply_collision rayO rayD b1 t1 pad_imp).map
            (fun r => (r.1, r.2.1, some r.2.2))
    | none, some imp =>
      (apply_collision rayO rayD ball ball_tf imp).map
        (fun r => (r.1, r.2.1, some r.2.2))
    | some imp, none =>
      (apply_collision rayO rayD ball ball_tf imp).map
        (fun r => (r.1, r.2.1, some r.2.2))
    | none, none => some (ball, ball_tf, none)

/-- The `detect_ball_off_screen` from `ball.rs`.  The system mutates nothing; it
is modelled as returning the (unchanged) ball and transform together with the
list of `BallOffScreen` messages written this frame.  `is_sign_positive` is
modelled as `0 ≤ x` (exact rationals have no negative zero). -/
def detect_ball_off_screen (ball : Ball) (ball_tf : Transform) :
    Ball × Transform × List BallOffScreen :=
  if ball.paused then
    (ball, ball_tf, [])
  else if BALL_OFF_SCREEN_X_MAG < |ball_tf.translation.x| then
    (ball, ball_tf,
      [if 0 ≤ ball_tf.translation.x then BallOffScreen.Right else BallOffScreen.Left])
  else
    (ball, ball_tf, [])

/-- The `handle_reset_ball` from `ball.rs`.  `has_msg` stands for
`!messages.is_empty()`; when set, the curve is cleared via
`apply_curve(CurveDir::None)`, the ball is paused, translation x and y are
zeroed, and rotation is reset to the identity.  `Option.none` propagates the
(unreachable) panic inside `apply_curve`. -/
def handle_reset_ball (has_msg : Bool) (ball : Ball) (ball_tf : Transform) :
    Option (Ball × Transform) :=
  if has_msg then
    match apply_curve ball.curve CurveDir.None with
    | none => none
    | some cs =>
      some ({ ball with curve := cs, paused := true },
        { ball_tf with
          translation := ⟨0, 0, ball_tf.translation.z⟩,
          rotation := 0 })
  else some (ball, ball_tf)

/-- The Player1 paddle as spawned by `setup_paddles` in `paddle.rs`:
translation `(-ARENA_WIDTH / 2, 0, Z_FOREGROUND)`, scale
`(PADDLE_WIDTH, PADDLE_HEIGHT, 0)`, anchored `CENTER_LEFT`. -/
def setup_paddle_p1 : PaddleEntry :=
  (⟨PlayerId.Player1, MoveDirection.None⟩,
    ⟨⟨-(ARENA_WIDTH / 2), 0, Z_FOREGROUND⟩, 0, ⟨PADDLE_WIDTH, PADDLE_HEIGHT, 0⟩⟩)

/-- The Player2 paddle as spawned by `setup_paddles` in `paddle.rs`:
translation `(ARENA_WIDTH / 2, 0, Z_FOREGROUND)`, scale
`(PADDLE_WIDTH, PADDLE_HEIGHT, 0)`, anchored `CENTER_RIGHT`. -/
def setup_paddle_p2 : PaddleEntry :=
  (⟨PlayerId.Player2, MoveDirection.None⟩,
    ⟨⟨ARENA_WIDTH / 2, 0, Z_FOREGROUND⟩, 0, ⟨PADDLE_WIDTH, PADDLE_HEIGHT, 0⟩⟩)

/-- The x coordinate of a paddle's inward-facing edge.  `setup_paddles`
anchors the Player1 sprite `CENTER_LEFT` and the Player2 sprite
`CENTER_RIGHT`, so a paddle body spans from its translation x (the outer
edge) across its full scale.x toward the arena center; the inward-facing
edge therefore sits at translation.x plus (Player1) or minus (Player2) the
full paddle thickness. -/
def inward_edge_x (hb : PaddleEntry) : ℚ :=
  match hb.1.player with
  | PlayerId.Player1 => hb.2.translation.x + hb.2.scale.x
  | PlayerId.Player2 => hb.2.translation.x - hb.2.scale.x

/-- The plane-origin x coordinate as the specification document words it:
the paddle's inward-facing edge coordinate offset toward the arena center by
the paddle's half-thickness.  Stated from the spec's words only, for
comparison against the code's `plane_origin`. -/
def claimed_plane_origin_x (hb : PaddleEntry) : ℚ :=
  match hb.1.player with
  | PlayerId.Player1 => inward_edge_x hb + hb.2.scale.x / 2
  | PlayerId.Player2 => inward_edge_x hb - hb.2.scale.x / 2

/-- The function `apply_curve` never hits its internal `unwrap` panic: the table lookup is
only reached when the state changed, and every changed index is in bounds. -/
theorem apply_curve_isSome (s : CurveState) (d : CurveDir) :
    (apply_curve s d).isSome = true := by
  obtain ⟨sd, si, st, sc⟩ := s
  by_cases h3 : si < 3
  · interval_cases si <;> cases d <;> cases sd <;>
      simp [apply_curve, BALL_CURVE_LEVELS, BALL_CURVE_CFG_NONE, BALL_CURVE_CFG_L1,
        BALL_CURVE_CFG_L2, BALL_CURVE_CFG_L3]
  · have h0 : si ≠ 0 := by omega
    cases d <;> cases sd <;>
      simp [apply_curve, BALL_CURVE_LEVELS, BALL_CURVE_CFG_NONE, BALL_CURVE_CFG_L1,
        BALL_CURVE_CFG_L2, BALL_CURVE_CFG_L3, h3, h0]

/-- When the prior level index is within the 4-entry table, so is the level
index produced by `apply_curve`. -/
theorem apply_curve_idx_le (s : CurveState) (d : CurveDir) (hs : s.cfg_idx ≤ 3)
    (s' : CurveState) (h : apply_curve s d = some s') : s'.cfg_idx ≤ 3 := by
  obtain ⟨sd, si, st, sc⟩ := s
  interval_cases si <;> cases d <;> cases sd <;>
    simp_all [apply_curve, BALL_CURVE_LEVELS, BALL_CURVE_CFG_NONE, BALL_CURVE_CFG_L1,
      BALL_CURVE_CFG_L2, BALL_CURVE_CFG_L3] <;>
    (first
      | omega
      | (obtain ⟨rfl⟩ := h; simp))

/-- Claim C3: a single `apply_curve` call performs exactly this case
analysis on states whose level index is within the table: argument `None`
resets to direction `None` and level 0; an argument equal to the current
direction increments the level by 1 capped at the table's last index 3 (a
no-op once at the cap); any other argument sets the direction to the
argument and the level to 1. -/
theorem c3_apply_curve_cases (s : CurveState) (d : CurveDir) (hs : s.cfg_idx ≤ 3) :
    ((apply_curve s CurveDir.None).map fun t => (t.dir, t.cfg_idx)) =
      some (CurveDir.None, 0) ∧
    (d ≠ CurveDir.None → d = s.dir →
      ((apply_curve s d).map fun t => (t.dir, t.cfg_idx)) =
        some (s.dir, min (s.cfg_idx + 1) 3)) ∧
    (d ≠ CurveDir.None → d ≠ s.dir →
      ((apply_curve s d).map fun t => (t.dir, t.cfg_idx)) = some (d, 1)) := by
  obtain ⟨sd, si, st, sc⟩ := s
  interval_cases si <;> cases d <;> cases sd <;>
    simp [apply_curve, BALL_CURVE_LEVELS, BALL_CURVE_CFG_NONE, BALL_CURVE_CFG_L1,
      BALL_CURVE_CFG_L2, BALL_CURVE_CFG_L3]

/-- Witness for C3: from state (Clockwise, level 2), applying Clockwise
again yields (Clockwise, level 3). -/
theorem c3_apply_curve_cases_witness :
    ((apply_curve ⟨CurveDir.Clockwise, 2, Timer.default, 0⟩ CurveDir.Clockwise).map
      fun t => (t.dir, t.cfg_idx)) = some (CurveDir.Clockwise, 3) := by
  have h := (c3_apply_curve_cases ⟨CurveDir.Clockwise, 2, Timer.default, 0⟩
    CurveDir.Clockwise (by norm_num)).2.1 (by simp) rfl
  simpa using h

/-- Claim C7: `apply_curve` never panics for any prior state (any direction,
any level index representable as a natural number), and whenever the prior
level index is within the 4-entry table's bounds the resulting level index
is also within bounds. -/
theorem c7_apply_curve_safe (s : CurveState) (d : CurveDir) :
    (apply_curve s d).isSome = true ∧
    (s.cfg_idx ≤ 3 → ∀ s', apply_curve s d = some s' → s'.cfg_idx ≤ 3) :=
  ⟨apply_curve_isSome s d, fun hs s' h => apply_curve_idx_le s d hs s' h⟩

/-- Witness for C7: an out-of-bounds prior level 7 still yields a result
(no panic), and an in-bounds prior level 3 stays in bounds. -/
theorem c7_apply_curve_safe_witness :
    (apply_curve ⟨CurveDir.Clockwise, 7, Timer.default, 0⟩ CurveDir.Clockwise).isSome
      = true ∧
    ((⟨CurveDir.CounterClockwise, 3, Timer.default, 0⟩ : CurveState).cfg_idx ≤ 3 ∧
      ∀ s', apply_curve ⟨CurveDir.CounterClockwise, 3, Timer.default, 0⟩
        CurveDir.CounterClockwise = some s' → s'.cfg_idx ≤ 3) :=
  ⟨(c7_apply_curve_safe ⟨CurveDir.Clockwise, 7, Timer.default, 0⟩ CurveDir.Clockwise).1,
    by norm_num,
    (c7_apply_curve_safe ⟨CurveDir.CounterClockwise, 3, Timer.default, 0⟩
      CurveDir.CounterClockwise).2 (by norm_num)⟩

/-- Claim C6: each frame, the off-screen detector leaves the ball and its
transform untouched and emits exactly one message — `Right` for positive x,
`Left` for negative x — precisely when the ball is unpaused and `|x|`
strictly exceeds `BALL_OFF_SCREEN_X_MAG`, which is the arena half-width
minus the ball radius; otherwise it emits nothing. -/
theorem c6_off_screen (ball : Ball) (tf : Transform) :
    (detect_ball_off_screen ball tf).1 = ball ∧
    (detect_ball_off_screen ball tf).2.1 = tf ∧
    (detect_ball_off_screen ball tf).2.2 =
      (if ball.paused = false ∧ BALL_OFF_SCREEN_X_MAG < |tf.translation.x| then
        [if 0 ≤ tf.translation.x then BallOffScreen.Right else BallOffScreen.Left]
      else []) ∧
    BALL_OFF_SCREEN_X_MAG = ARENA_WIDTH / 2 - BALL_SIZE / 2 := by
  by_cases hp : ball.paused <;>
    by_cases hx : BALL_OFF_SCREEN_X_MAG < |tf.translation.x| <;>
    simp [detect_ball_off_screen, hp, hx] <;>
    rfl

/-- A first paddle entry matching Player1, used to exhibit duplicated
entries for one side. -/
def dup_paddle_a : PaddleEntry :=
  (⟨PlayerId.Player1, MoveDirection.None⟩, ⟨⟨-8, 0, 1⟩, 0, ⟨1, 2, 0⟩⟩)

/-- A second, distinct paddle entry also matching Player1. -/
def dup_paddle_b : PaddleEntry :=
  (⟨PlayerId.Player1, MoveDirection.Up⟩, ⟨⟨-8, 3, 1⟩, 0, ⟨1, 2, 0⟩⟩)

/-- Counterexample to C8: with two paddle entries both matching Player1, the
hitbox accessor does not terminate with a diagnostic — it silently returns
the first matching entry. -/
theorem c8_counterexample :
    from_query [dup_paddle_a, dup_paddle_b] PlayerId.Player1 ≠ none ∧
    from_query [dup_paddle_a, dup_paddle_b] PlayerId.Player1 = some dup_paddle_a := by
  constructor <;> simp [from_query, dup_paddle_a]

/-- Claim C8 (amended): requesting a hitbox for a side with zero matching
paddle entities is a fatal precondition violation (modelled `none`); with
one or more matching entities the accessor returns the first match — it
does not detect duplicates. -/
theorem c8_from_query_amended (q : List PaddleEntry) (p : PlayerId) :
    (from_query q p = none ↔ ∀ e ∈ q, e.1.player ≠ p) ∧
    from_query q p = q.find? (fun e => decide (e.1.player = p)) := by
  induction q with
  | nil => simp [from_query]
  | cons a rest ih =>
    by_cases h : a.1.player = p <;>
      simp [from_query, List.find?, h, ih.1, ih.2]

/-- Witness for C8 (amended): the accessor fails on an empty query and, on
the duplicated Player1 query, agrees with taking the first match. -/
theorem c8_from_query_amended_witness :
    from_query [] PlayerId.Player2 = none ∧
    from_query [dup_paddle_a, dup_paddle_b] PlayerId.Player1 =
      List.find? (fun e => decide (e.1.player = PlayerId.Player1))
        [dup_paddle_a, dup_paddle_b] :=
  ⟨(c8_from_query_amended [] PlayerId.Player2).1.mpr (by simp),
    (c8_from_query_amended [dup_paddle_a, dup_paddle_b] PlayerId.Player1).2⟩

/-- Counterexample to C9: for the Player1 paddle exactly as spawned by
`setup_paddles`, the code's `plane_origin` x coordinate differs from "the
inward-facing edge coordinate offset toward the arena center by the
paddle's half-thickness" (they differ by half the paddle width). -/
theorem c9_counterexample :
    (plane_origin setup_paddle_p1).x ≠ claimed_plane_origin_x setup_paddle_p1 := by
  norm_num [plane_origin, claimed_plane_origin_x, inward_edge_x, setup_paddle_p1,
    Vec3.xy, Vec2.add_def, PADDLE_WIDTH, PADDLE_HEIGHT, ARENA_WIDTH, ARENA_HEIGHT]

/-- Claim C9 (amended): for every paddle snapshot, `plane_origin` sits
exactly at the paddle's inward-facing front face — the transform coordinate
(the outer-edge anchor) offset toward the arena center by the full paddle
thickness — with no additional half-thickness offset, and its y is the
paddle's center y; in particular the spawned paddles get plane x
`∓(ARENA_WIDTH / 2 ∓ PADDLE_WIDTH)`. -/
theorem c9_plane_origin_amended (hb : PaddleEntry) :
    ((plane_origin hb).x = inward_edge_x hb ∧
      (plane_origin hb).y = hb.2.translation.y) ∧
    (plane_origin setup_paddle_p1).x = -(ARENA_WIDTH / 2) + PADDLE_WIDTH ∧
    (plane_origin setup_paddle_p2).x = ARENA_WIDTH / 2 - PADDLE_WIDTH := by
  refine ⟨?_, ?_, ?_⟩
  · obtain ⟨⟨pl, md⟩, tf⟩ := hb
    cases pl <;>
      (simp [plane_origin, inward_edge_x, Vec3.xy, Vec2.add_def]; try ring)
  · simp [plane_origin, setup_paddle_p1, Vec3.xy, Vec2.add_def]
  · simp [plane_origin, setup_paddle_p2, Vec3.xy, Vec2.add_def]
    ring

/-- Claim C10: handling a reset event zeroes only the x and y components of
the ball's translation (z is preserved), leaves the movement direction and
scale unchanged, pauses the ball and resets rotation to the identity. -/
theorem c10_reset (ball : Ball) (tf : Transform) (b' : Ball) (tf' : Transform)
    (h : handle_reset_ball true ball tf = some (b', tf')) :
    tf'.translation.x = 0 ∧ tf'.translation.y = 0 ∧
    tf'.translation.z = tf.translation.z ∧
    b'.movement_dir = ball.movement_dir ∧
    tf'.scale = tf.scale ∧ b'.paused = true ∧ tf'.rotation = 0 := by
  unfold handle_reset_ball at h
  simp only [if_true] at h
  cases hac : apply_curve ball.curve CurveDir.None with
  | none => rw [hac] at h; exact absurd h (by simp)
  | some cs =>
    rw [hac] at h
    simp only [Option.some.injEq, Prod.mk.injEq] at h
    obtain ⟨hb, ht⟩ := h
    subst hb
    subst ht
    simp

/-- Witness for C10: a concrete reset of an unpaused ball at (2, -1, 5). -/
theorem c10_reset_witness :
    handle_reset_ball true ⟨⟨3 / 5, 4 / 5⟩, false, CurveState.default⟩
      ⟨⟨2, -1, 5⟩, 7, ⟨1, 1, 0⟩⟩ =
      some (⟨⟨3 / 5, 4 / 5⟩, true, CurveState.default⟩, ⟨⟨0, 0, 5⟩, 0, ⟨1, 1, 0⟩⟩) ∧
    (⟨⟨0, 0, 5⟩, 0, ⟨1, 1, 0⟩⟩ : Transform).translation.x = 0 ∧
    (⟨⟨0, 0, 5⟩, 0, ⟨1, 1, 0⟩⟩ : Transform).translation.z =
      (⟨⟨2, -1, 5⟩, 7, ⟨1, 1, 0⟩⟩ : Transform).translation.z :=
  have h : handle_reset_ball true ⟨⟨3 / 5, 4 / 5⟩, false, CurveState.default⟩
      ⟨⟨2, -1, 5⟩, 7, ⟨1, 1, 0⟩⟩ =
      some (⟨⟨3 / 5, 4 / 5⟩, true, CurveState.default⟩, ⟨⟨0, 0, 5⟩, 0, ⟨1, 1, 0⟩⟩) := by
    simp [handle_reset_ball, apply_curve, CurveState.default]
  ⟨h, (c10_reset _ _ _ _ h).1, (c10_reset _ _ _ _ h).2.2.1⟩

/-- The four axis-aligned surface normals used by `collide_once`: wall
normals `Y`/`NEG_Y` and paddle normals `X`/`NEG_X`. -/
def axis_normals : List Vec2 := [⟨0, 1⟩, ⟨0, -1⟩, ⟨1, 0⟩, ⟨-1, 0⟩]

/-- Reflecting about either wall normal flips exactly the y component. -/
theorem reflect_wall_normal (d w : Vec2) (hw : w = ⟨0, 1⟩ ∨ w = ⟨0, -1⟩) :
    d.reflect w = ⟨d.x, -d.y⟩ := by
  rcases hw with rfl | rfl <;>
    · simp only [Vec2.reflect, Vec2.dot, Vec2.sub_def, Vec2.smul_def, Vec2.mk.injEq]
      constructor <;> ring

/-- Reflecting about either paddle normal flips exactly the x component. -/
theorem reflect_paddle_normal (d p : Vec2) (hp : p = ⟨1, 0⟩ ∨ p = ⟨-1, 0⟩) :
    d.reflect p = ⟨-d.x, d.y⟩ := by
  rcases hp with rfl | rfl <;>
    · simp only [Vec2.reflect, Vec2.dot, Vec2.sub_def, Vec2.smul_def, Vec2.mk.injEq]
      constructor <;> ring

/-- Claim C5: starting from any unit direction, any number of successive
reflections about the axis-aligned wall/paddle normals used by collision
resolution leaves the squared magnitude exactly 1 — in particular the
magnitude stays within 1e-5 of 1 (the embedding is exact, so no floating
drift exists at all). -/
theorem c5_reflections_unit (L : List Vec2) (hL : ∀ n ∈ L, n ∈ axis_normals)
    (d : Vec2) (hd : d.normSq = 1) :
    (L.foldl Vec2.reflect d).normSq = 1 ∧
    |(L.foldl Vec2.reflect d).normSq - 1| ≤ 1 / 100000 := by
  have main : ∀ (M : List Vec2), (∀ n ∈ M, n ∈ axis_normals) → ∀ e : Vec2,
      e.normSq = 1 → (M.foldl Vec2.reflect e).normSq = 1 := by
    intro M
    induction M with
    | nil => intro _ e he; simpa using he
    | cons a rest ih =>
      intro hmem e he
      simp only [List.foldl_cons]
      refine ih (fun n hn => hmem n (by simp [hn])) _ ?_
      have ha := hmem a (by simp)
      have ha1 : a.normSq = 1 := by
        simp only [axis_normals, List.mem_cons, List.mem_singleton,
          List.not_mem_nil, or_false] at ha
        rcases ha with rfl | rfl | rfl | rfl <;> norm_num [Vec2.normSq, Vec2.dot]
      rw [reflect_normSq e a ha1, he]
  refine ⟨main L hL d hd, ?_⟩
  rw [main L hL d hd]
  norm_num

/-- Witness for C5: two reflections (bottom wall then left paddle) of the
unit 3-4-5 direction keep squared magnitude exactly 1. -/
theorem c5_reflections_unit_witness :
    (∀ n ∈ ([⟨0, -1⟩, ⟨-1, 0⟩] : List Vec2), n ∈ axis_normals) ∧
    Vec2.normSq ⟨3 / 5, 4 / 5⟩ = 1 ∧
    (([⟨0, -1⟩, ⟨-1, 0⟩] : List Vec2).foldl Vec2.reflect ⟨3 / 5, 4 / 5⟩).normSq = 1 :=
  ⟨by intro n hn; simp only [axis_normals]; simp at hn; rcases hn with rfl | rfl <;> simp,
    by norm_num [Vec2.normSq, Vec2.dot],
    (c5_reflections_unit [⟨0, -1⟩, ⟨-1, 0⟩]
      (by intro n hn; simp only [axis_normals]; simp at hn; rcases hn with rfl | rfl <;> simp)
      ⟨3 / 5, 4 / 5⟩ (by norm_num [Vec2.normSq, Vec2.dot])).1⟩

/-- Inversion for an accepted paddle candidate: it came from a ray-plane
intersection, within the travel budget, with the impact y inside the
paddle's extended extent, carrying the paddle plane's normal, the paddle
spin, and the cached impact point. -/
theorem paddle_candidate_inv (move_dist : ℚ) (rayO rayD : Vec2) (pcfg : PaddleCfg)
    (c : Collision) (h : paddle_candidate move_dist rayO rayD pcfg = some c) :
    intersect_plane rayO rayD pcfg.origin pcfg.normal = some c.dist ∧
    c.dist ≤ move_dist ∧
    c.normal = pcfg.normal ∧ c.curve = some pcfg.spin ∧
    c.cached = some (get_point rayO rayD c.dist) ∧
    pcfg.botOff ≤ (get_point rayO rayD c.dist).y ∧
    (get_point rayO rayD c.dist).y ≤ pcfg.topOff := by
  unfold paddle_candidate at h
  cases hint : intersect_plane rayO rayD pcfg.origin pcfg.normal with
  | none => rw [hint] at h; exact absurd h (by simp)
  | some dist =>
    rw [hint] at h
    simp only [] at h
    by_cases hle : dist ≤ move_dist
    · rw [if_pos hle] at h
      by_cases hrange : pcfg.botOff ≤ (get_point rayO rayD dist).y ∧
          (get_point rayO rayD dist).y ≤ pcfg.topOff
      · rw [if_pos hrange, Option.some.injEq] at h
        subst h
        exact ⟨rfl, hle, rfl, rfl, rfl, hrange.1, hrange.2⟩
      · rw [if_neg hrange] at h
        exact absurd h (by simp)
    · rw [if_neg hle] at h
      exact absurd h (by simp)

/-- Inversion for an accepted wall candidate: it came from a ray-plane
intersection within the travel budget, carries the wall plane's normal, no
spin, and no cached impact point. -/
theorem wall_candidate_inv (move_dist : ℚ) (rayO rayD : Vec2) (w : Vec2 × Vec2)
    (c : Collision) (h : wall_candidate move_dist rayO rayD w = some c) :
    intersect_plane rayO rayD w.1 w.2 = some c.dist ∧
    c.dist ≤ move_dist ∧ c.normal = w.2 ∧ c.curve = none ∧ c.cached = none := by
  unfold wall_candidate at h
  cases hint : intersect_plane rayO rayD w.1 w.2 with
  | none => rw [hint] at h; exact absurd h (by simp)
  | some dist =>
    rw [hint] at h
    simp only [] at h
    by_cases hle : dist ≤ move_dist
    · rw [if_pos hle, Option.some.injEq] at h
      subst h
      exact ⟨rfl, hle, rfl, rfl, rfl⟩
    · rw [if_neg hle] at h
      exact absurd h (by simp)

/-- Applying a collision that carries no spin (a wall collision) evaluates
to exactly this state: ball relocated to the impact point, direction
reflected, curve state untouched. -/
theorem apply_collision_no_spin (rayO rayD : Vec2) (ball : Ball) (tf : Transform)
    (c : Collision) (hc : c.curve = none) :
    apply_collision rayO rayD ball tf c =
      some ({ ball with movement_dir := ball.movement_dir.reflect c.normal },
        { tf with translation := ⟨(c.cached.getD (get_point rayO rayD c.dist)).x,
          (c.cached.getD (get_point rayO rayD c.dist)).y, 0⟩ }, c.dist) := by
  unfold apply_collision
  rw [hc]

/-- Applying a collision that carries spin `cd` (a paddle collision)
evaluates to exactly this state once `apply_curve` yields `cs`: ball
relocated to the impact point, direction reflected, curve state replaced by
`cs`. -/
theorem apply_collision_spin (rayO rayD : Vec2) (ball : Ball) (tf : Transform)
    (c : Collision) (cd : CurveDir) (cs : CurveState) (hc : c.curve = some cd)
    (hs : apply_curve ball.curve cd = some cs) :
    apply_collision rayO rayD ball tf c =
      some ({ ball with
          movement_dir := ball.movement_dir.reflect c.normal
          curve := cs },
        { tf with translation := ⟨(c.cached.getD (get_point rayO rayD c.dist)).x,
          (c.cached.getD (get_point rayO rayD c.dist)).y, 0⟩ }, c.dist) := by
  unfold apply_collision
  rw [hc]
  simp only []
  rw [hs]

/-- Claim C4: the spin fed into the curve state on a paddle collision is
exactly the side-and-movement mapping of the source (right paddle: up ↦
counter-clockwise, down ↦ clockwise, stationary ↦ none; mirrored for the
left paddle); every accepted paddle candidate carries that spin, every
accepted wall candidate carries none, and applying a spinless (wall)
collision leaves the curve state unchanged while applying a paddle
collision routes its spin through `apply_curve`. -/
theorem c4_spin_mapping :
    paddle_spin PlayerId.Player2 MoveDirection.Up = CurveDir.CounterClockwise ∧
    paddle_spin PlayerId.Player2 MoveDirection.Down = CurveDir.Clockwise ∧
    paddle_spin PlayerId.Player2 MoveDirection.None = CurveDir.None ∧
    paddle_spin PlayerId.Player1 MoveDirection.Up = CurveDir.Clockwise ∧
    paddle_spin PlayerId.Player1 MoveDirection.Down = CurveDir.CounterClockwise ∧
    paddle_spin PlayerId.Player1 MoveDirection.None = CurveDir.None ∧
    (∀ side hb ball_rad,
      (paddle_cfg side hb ball_rad).spin = paddle_spin side (movement_dir hb)) ∧
    (∀ move_dist rayO rayD pcfg c,
      paddle_candidate move_dist rayO rayD pcfg = some c → c.curve = some pcfg.spin) ∧
    (∀ move_dist rayO rayD w c,
      wall_candidate move_dist rayO rayD w = some c → c.curve = none) ∧
    (∀ rayO rayD ball tf c r, c.curve = none →
      apply_collision rayO rayD ball tf c = some r → r.1.curve = ball.curve) ∧
    (∀ rayO rayD ball tf c cd r, c.curve = some cd →
      apply_collision rayO rayD ball tf c = some r →
      apply_curve ball.curve cd = some r.1.curve) := by
  refine ⟨rfl, rfl, rfl, rfl, rfl, rfl, ?_, ?_, ?_, ?_, ?_⟩
  · intro side hb ball_rad
    cases side <;> rfl
  · intro move_dist rayO rayD pcfg c h
    exact (paddle_candidate_inv move_dist rayO rayD pcfg c h).2.2.2.1
  · intro move_dist rayO rayD w c h
    exact (wall_candidate_inv move_dist rayO rayD w c h).2.2.2.1
  · intro rayO rayD ball tf c r hc h
    rw [apply_collision_no_spin rayO rayD ball tf c hc] at h
    obtain ⟨rfl⟩ := h
    rfl
  · intro rayO rayD ball tf c cd r hc h
    cases hs : apply_curve ball.curve cd with
    | none =>
      exfalso
      unfold apply_collision at h
      rw [hc] at h
      simp only at h
      rw [hs] at h
      exact absurd h (by simp)
    | some cs =>
      rw [apply_collision_spin rayO rayD ball tf c cd cs hc hs] at h
      obtain ⟨rfl⟩ := h
      rfl

/-- Witness for C4: a concrete spinless collision applied to a concrete
ball leaves its curve state unchanged, and a concrete accepted wall
candidate indeed carries no spin. -/
theorem c4_spin_mapping_witness :
    (apply_collision ⟨0, 0⟩ ⟨3 / 5, 4 / 5⟩
        ⟨⟨3 / 5, 4 / 5⟩, false, CurveState.default⟩
        ⟨⟨0, 0, 0⟩, 0, ⟨0, 0, 0⟩⟩ ⟨5, ⟨0, -1⟩, none, none⟩ =
      some (⟨⟨3 / 5, -(4 / 5)⟩, false, CurveState.default⟩,
        ⟨⟨3, 4, 0⟩, 0, ⟨0, 0, 0⟩⟩, 5)) ∧
    (⟨⟨3 / 5, -(4 / 5)⟩, false, CurveState.default⟩ : Ball).curve =
      (⟨⟨3 / 5, 4 / 5⟩, false, CurveState.default⟩ : Ball).curve := by
  have happ : apply_collision ⟨0, 0⟩ ⟨3 / 5, 4 / 5⟩
      ⟨⟨3 / 5, 4 / 5⟩, false, CurveState.default⟩
      ⟨⟨0, 0, 0⟩, 0, ⟨0, 0, 0⟩⟩ ⟨5, ⟨0, -1⟩, none, none⟩ =
      some (⟨⟨3 / 5, -(4 / 5)⟩, false, CurveState.default⟩,
        ⟨⟨3, 4, 0⟩, 0, ⟨0, 0, 0⟩⟩, 5) := by
    rw [apply_collision_no_spin _ _ _ _ _ rfl]
    norm_num [Vec2.reflect, Vec2.dot, Vec2.sub_def, Vec2.smul_def, get_point,
      Vec2.add_def]
  refine ⟨happ, ?_⟩
  exact (c4_spin_mapping.2.2.2.2.2.2.2.2.2.1 ⟨0, 0⟩ ⟨3 / 5, 4 / 5⟩
    ⟨⟨3 / 5, 4 / 5⟩, false, CurveState.default⟩ ⟨⟨0, 0, 0⟩, 0, ⟨0, 0, 0⟩⟩
    ⟨5, ⟨0, -1⟩, none, none⟩ _ rfl happ)

/-- The candidate wall normal is one of the two unit y-axis normals. -/
theorem wall_cfg_normal (dirY ball_rad : ℚ) :
    (wall_cfg dirY ball_rad).2 = ⟨0, 1⟩ ∨ (wall_cfg dirY ball_rad).2 = ⟨0, -1⟩ := by
  unfold wall_cfg
  by_cases h : 0 < dirY <;> simp [h]

/-- The candidate paddle normal is one of the two unit x-axis normals. -/
theorem paddle_cfg_normal (side : PlayerId) (hb : PaddleEntry) (rad : ℚ) :
    (paddle_cfg side hb rad).normal = ⟨1, 0⟩ ∨
      (paddle_cfg side hb rad).normal = ⟨-1, 0⟩ := by
  cases side <;> simp [paddle_cfg]

/-- A point on a plane with a vertical-axis normal shares the plane's y. -/
theorem on_plane_y (ip po : Vec2) (s : ℚ) (hs : s ≠ 0)
    (h : (ip - po).dot ⟨0, s⟩ = 0) : ip.y = po.y := by
  have h' : (ip.y - po.y) * s = 0 := by
    simpa [Vec2.dot, Vec2.sub_def] using h
  rcases mul_eq_zero.mp h' with h'' | h''
  · linarith
  · exact absurd h'' hs

/-- A point on a plane with a horizontal-axis normal shares the plane's x. -/
theorem on_plane_x (ip po : Vec2) (s : ℚ) (hs : s ≠ 0)
    (h : (ip - po).dot ⟨s, 0⟩ = 0) : ip.x = po.x := by
  have h' : (ip.x - po.x) * s = 0 := by
    simpa [Vec2.dot, Vec2.sub_def] using h
  rcases mul_eq_zero.mp h' with h'' | h''
  · linarith
  · exact absurd h'' hs

/-- Claim C1: in a collision-resolution iteration where the candidate wall
plane and candidate paddle plane are both hit within budget at exactly
equal distances (a corner hit), `collide_once` applies both reflections in
sequence — wall first, then paddle — relocating the ball to the shared
impact point (with z zeroed) and flipping both components of the incoming
direction; the paddle spin is fed into the curve state and the iteration
reports the shared distance as consumed. -/
theorem c1_corner_hit (move_dist : ℚ) (ball : Ball) (ball_tf : Transform)
    (paddles : List PaddleEntry) (hb : PaddleEntry) (p w : Collision)
    (hq : from_query paddles (ball_side ball.movement_dir.x) = some hb)
    (hp : paddle_candidate move_dist ball_tf.translation.xy ball.movement_dir
      (paddle_cfg (ball_side ball.movement_dir.x) hb (ball_tf.scale.x / 2)) = some p)
    (hw : wall_candidate move_dist ball_tf.translation.xy ball.movement_dir
      (wall_cfg ball.movement_dir.y (ball_tf.scale.x / 2)) = some w)
    (heq : p.dist = w.dist) :
    ∃ cs,
      apply_curve ball.curve
        (paddle_cfg (ball_side ball.movement_dir.x) hb (ball_tf.scale.x / 2)).spin
        = some cs ∧
      collide_once move_dist ball ball_tf paddles =
        some ({ ball with
            movement_dir := ⟨-ball.movement_dir.x, -ball.movement_dir.y⟩
            curve := cs },
          { ball_tf with translation :=
            ⟨(get_point ball_tf.translation.xy ball.movement_dir p.dist).x,
              (get_point ball_tf.translation.xy ball.movement_dir p.dist).y, 0⟩ },
          some p.dist) := by
  obtain ⟨hintp, hlep, hnp, hcp, hcachep, hbot, htop⟩ :=
    paddle_candidate_inv _ _ _ _ _ hp
  obtain ⟨hintw, hlew, hnw, hcw, hcachew⟩ := wall_candidate_inv _ _ _ _ _ hw
  obtain ⟨cs, hcs⟩ := Option.isSome_iff_exists.mp
    (apply_curve_isSome ball.curve
      (paddle_cfg (ball_side ball.movement_dir.x) hb (ball_tf.scale.x / 2)).spin)
  refine ⟨cs, hcs, ?_⟩
  unfold collide_once
  simp only []
  rw [hq]
  simp only []
  rw [hp, hw]
  simp only []
  rw [if_neg (by rw [heq]; exact lt_irrefl _), if_neg (by rw [heq]; exact lt_irrefl _)]
  rw [apply_collision_no_spin _ _ _ _ _ hcw]
  simp only []
  have happ2 := apply_collision_spin ball_tf.translation.xy ball.movement_dir
    { ball with movement_dir := ball.movement_dir.reflect w.normal }
    { ball_tf with translation :=
      ⟨(w.cached.getD (get_point ball_tf.translation.xy ball.movement_dir w.dist)).x,
        (w.cached.getD (get_point ball_tf.translation.xy ball.movement_dir w.dist)).y,
        0⟩ }
    p _ cs hcp hcs
  rw [happ2]
  have hrefl1 : ball.movement_dir.reflect w.normal =
      ⟨ball.movement_dir.x, -ball.movement_dir.y⟩ := by
    rw [hnw]
    exact reflect_wall_normal _ _ (wall_cfg_normal _ _)
  have hrefl2 : (ball.movement_dir.reflect w.normal).reflect p.normal =
      ⟨-ball.movement_dir.x, -ball.movement_dir.y⟩ := by
    rw [hrefl1, hnp]
    exact reflect_paddle_normal _ _ (paddle_cfg_normal _ _ _)
  rw [hcachep]
  simp only [Option.getD_some, Option.map_some', hrefl2]

/-- A concrete ball heading up-right along `(1, 1)` toward the top-right
corner region. -/
def corner_ball : Ball := ⟨⟨1, 1⟩, false, CurveState.default⟩

/-- A concrete ball transform at `(3, 7/2)` with zero scale (ball radius 0). -/
def corner_tf : Transform := ⟨⟨3, 7 / 2, 0⟩, 0, ⟨0, 0, 0⟩⟩

/-- A concrete Player2 paddle whose collision plane is `x = 4`, spanning
y in `[-10, 10]`, stationary. -/
def corner_paddle : PaddleEntry :=
  (⟨PlayerId.Player2, MoveDirection.None⟩, ⟨⟨5, 0, 0⟩, 0, ⟨1, 20, 0⟩⟩)

/-- Witness for C1: from `(3, 7/2)` along `(1, 1)`, the top wall plane
`y = 9/2` and the paddle plane `x = 4` are both hit at distance 1; both
reflections apply and the direction flips in both components. -/
theorem c1_corner_hit_witness :
    ∃ cs,
      apply_curve corner_ball.curve
        (paddle_cfg (ball_side corner_ball.movement_dir.x) corner_paddle
          (corner_tf.scale.x / 2)).spin = some cs ∧
      collide_once 2 corner_ball corner_tf [corner_paddle] =
        some ({ corner_ball with
            movement_dir := ⟨-corner_ball.movement_dir.x, -corner_ball.movement_dir.y⟩
            curve := cs },
          { corner_tf with translation :=
            ⟨(get_point corner_tf.translation.xy corner_ball.movement_dir 1).x,
              (get_point corner_tf.translation.xy corner_ball.movement_dir 1).y, 0⟩ },
          some 1) := by
  have hq : from_query [corner_paddle] (ball_side corner_ball.movement_dir.x) =
      some corner_paddle := by
    norm_num [from_query, ball_side, corner_ball, corner_paddle]
  have hcfg : paddle_cfg (ball_side corner_ball.movement_dir.x) corner_paddle
      (corner_tf.scale.x / 2) = ⟨⟨4, 0⟩, ⟨-1, 0⟩, -10, 10, CurveDir.None⟩ := by
    norm_num [paddle_cfg, ball_side, corner_ball, corner_paddle, corner_tf,
      plane_origin, bot_y, top_y, movement_dir, paddle_spin, Vec3.xy,
      Vec2.add_def, Vec2.sub_def]
  have hp : paddle_candidate 2 corner_tf.translation.xy corner_ball.movement_dir
      (paddle_cfg (ball_side corner_ball.movement_dir.x) corner_paddle
        (corner_tf.scale.x / 2)) =
      some ⟨1, ⟨-1, 0⟩, some CurveDir.None, some ⟨4, 9 / 2⟩⟩ := by
    rw [hcfg]
    have hip : intersect_plane corner_tf.translation.xy corner_ball.movement_dir
        ⟨4, 0⟩ ⟨-1, 0⟩ = some 1 := by
      norm_num [intersect_plane, corner_tf, corner_ball, Vec3.xy, Vec2.dot,
        Vec2.sub_def, EPS]
    unfold paddle_candidate
    rw [hip]
    simp only []
    norm_num [get_point, corner_tf, corner_ball, Vec3.xy, Vec2.add_def, Vec2.smul_def]
  have hwcfg : wall_cfg corner_ball.movement_dir.y (corner_tf.scale.x / 2) =
      (⟨0, 9 / 2⟩, ⟨0, -1⟩) := by
    norm_num [wall_cfg, corner_ball, corner_tf, ARENA_HEIGHT]
  have hw : wall_candidate 2 corner_tf.translation.xy corner_ball.movement_dir
      (wall_cfg corner_ball.movement_dir.y (corner_tf.scale.x / 2)) =
      some ⟨1, ⟨0, -1⟩, none, none⟩ := by
    rw [hwcfg]
    have hiw : intersect_plane corner_tf.translation.xy corner_ball.movement_dir
        ⟨0, 9 / 2⟩ ⟨0, -1⟩ = some 1 := by
      norm_num [intersect_plane, corner_tf, corner_ball, Vec3.xy, Vec2.dot,
        Vec2.sub_def, EPS]
    unfold wall_candidate
    rw [hiw]
    norm_num
  exact c1_corner_hit 2 corner_ball corner_tf [corner_paddle] corner_paddle
    ⟨1, ⟨-1, 0⟩, some CurveDir.None, some ⟨4, 9 / 2⟩⟩ ⟨1, ⟨0, -1⟩, none, none⟩
    hq hp hw rfl

/-- Inversion for a successful `apply_collision`: the consumed distance is
the collision's, the ball is relocated to the impact point (z zeroed), and
the direction is the reflection of the incoming one. -/
theorem apply_collision_inv (rayO rayD : Vec2) (ball : Ball) (tf : Transform)
    (c : Collision) (r : Ball × Transform × ℚ)
    (h : apply_collision rayO rayD ball tf c = some r) :
    r.2.2 = c.dist ∧
    r.2.1.translation = ⟨(c.cached.getD (get_point rayO rayD c.dist)).x,
      (c.cached.getD (get_point rayO rayD c.dist)).y, 0⟩ ∧
    r.1.movement_dir = ball.movement_dir.reflect c.normal := by
  unfold apply_collision at h
  cases hc : c.curve with
  | none =>
    rw [hc] at h
    simp only [] at h
    rw [Option.some.injEq] at h
    subst h
    exact ⟨rfl, rfl, rfl⟩
  | some cd =>
    rw [hc] at h
    simp only [] at h
    cases hs : apply_curve ball.curve cd with
    | none => rw [hs] at h; exact absurd h (by simp)
    | some cs =>
      rw [hs] at h
      rw [Option.some.injEq] at h
      subst h
      exact ⟨rfl, rfl, rfl⟩

/-- Unpacking `collide_once`'s `Option.map` over an applied collision. -/
theorem map_triple_inv (o : Option (Ball × Transform × ℚ)) (b' : Ball)
    (tf' : Transform) (d : ℚ)
    (h : o.map (fun r => (r.1, r.2.1, some r.2.2)) = some (b', tf', some d)) :
    ∃ r, o = some r ∧ r.1 = b' ∧ r.2.1 = tf' ∧ r.2.2 = d := by
  cases o with
  | none => exact absurd h (by simp)
  | some r =>
    simp only [Option.map_some'] at h
    have h' := Option.some.inj h
    refine ⟨r, rfl, congrArg (fun t => t.1) h', congrArg (fun t => t.2.1) h', ?_⟩
    exact Option.some.inj (congrArg (fun t => t.2.2) h')

/-- When the final applied collision of an iteration is the paddle
candidate, the resulting position's x lies exactly on the paddle plane and
the consumed distance is the accepted (positive, within-budget) one. -/
theorem paddle_final_x (move_dist : ℚ) (rayO rayD : Vec2) (pcfg : PaddleCfg)
    (p : Collision) (hpc : paddle_candidate move_dist rayO rayD pcfg = some p)
    (hnx : pcfg.normal = ⟨1, 0⟩ ∨ pcfg.normal = ⟨-1, 0⟩)
    (ball0 : Ball) (tf0 : Transform) (r : Ball × Transform × ℚ)
    (har : apply_collision rayO rayD ball0 tf0 p = some r) :
    r.2.1.translation.x = pcfg.origin.x ∧ r.2.2 = p.dist ∧
    EPS < p.dist ∧ p.dist ≤ move_dist := by
  obtain ⟨hint, hle, hn, hc, hcache, _, _⟩ := paddle_candidate_inv _ _ _ _ _ hpc
  obtain ⟨hd, htr, _⟩ := apply_collision_inv _ _ _ _ _ _ har
  refine ⟨?_, hd, intersect_plane_pos _ _ _ _ _ hint, hle⟩
  rw [htr]
  simp only [hcache, Option.getD_some]
  have hon := intersect_plane_on_plane _ _ _ _ _ hint
  rcases hnx with hx | hx <;> rw [hx] at hon
  · exact on_plane_x _ _ _ (by norm_num) hon
  · exact on_plane_x _ _ _ (by norm_num) hon

/-- When the final applied collision of an iteration is the wall candidate,
the resulting position's y lies exactly on the wall plane and the consumed
distance is the accepted (positive, within-budget) one. -/
theorem wall_final_y (move_dist : ℚ) (rayO rayD : Vec2) (wcfg : Vec2 × Vec2)
    (w : Collision) (hwc : wall_candidate move_dist rayO rayD wcfg = some w)
    (hny : wcfg.2 = ⟨0, 1⟩ ∨ wcfg.2 = ⟨0, -1⟩)
    (ball0 : Ball) (tf0 : Transform) (r : Ball × Transform × ℚ)
    (har : apply_collision rayO rayD ball0 tf0 w = some r) :
    r.2.1.translation.y = wcfg.1.y ∧ r.2.2 = w.dist ∧
    EPS < w.dist ∧ w.dist ≤ move_dist := by
  obtain ⟨hint, hle, hn, hc, hcache⟩ := wall_candidate_inv _ _ _ _ _ hwc
  obtain ⟨hd, htr, _⟩ := apply_collision_inv _ _ _ _ _ _ har
  refine ⟨?_, hd, intersect_plane_pos _ _ _ _ _ hint, hle⟩
  rw [htr]
  simp only [hcache, Option.getD_none]
  have hon := intersect_plane_on_plane _ _ _ _ _ hint
  rcases hny with hy | hy <;> rw [hy] at hon
  · exact on_plane_y _ _ _ (by norm_num) hon
  · exact on_plane_y _ _ _ (by norm_num) hon

/-- Claim C2: whenever a `collide_once` iteration applies a collision and
reports a consumed distance `d`, that distance is strictly positive and at
most the travel budget — so the remaining budget `move_dist - d` is
nonnegative — and the resulting position lies exactly on the collided plane
(the candidate wall's y, or the candidate paddle's plane x), never strictly
beyond it. -/
theorem c2_no_tunneling (move_dist : ℚ) (ball : Ball) (ball_tf : Transform)
    (paddles : List PaddleEntry) (b' : Ball) (tf' : Transform) (d : ℚ)
    (h : collide_once move_dist ball ball_tf paddles = some (b', tf', some d)) :
    EPS < d ∧ d ≤ move_dist ∧ 0 ≤ move_dist - d ∧
    (tf'.translation.y = (wall_cfg ball.movement_dir.y (ball_tf.scale.x / 2)).1.y ∨
      ∃ hb, from_query paddles (ball_side ball.movement_dir.x) = some hb ∧
        tf'.translation.x =
          (paddle_cfg (ball_side ball.movement_dir.x) hb (ball_tf.scale.x / 2)).origin.x) := by
  unfold collide_once at h
  simp only [] at h
  cases hq : from_query paddles (ball_side ball.movement_dir.x) with
  | none => rw [hq] at h; exact absurd h (by simp)
  | some hb =>
    rw [hq] at h
    simp only [] at h
    cases hpc : paddle_candidate move_dist ball_tf.translation.xy ball.movement_dir
        (paddle_cfg (ball_side ball.movement_dir.x) hb (ball_tf.scale.x / 2)) with
    | none =>
      rw [hpc] at h
      cases hwc : wall_candidate move_dist ball_tf.translation.xy ball.movement_dir
          (wall_cfg ball.movement_dir.y (ball_tf.scale.x / 2)) with
      | none =>
        rw [hwc] at h
        simp only [] at h
        exact absurd (Option.some.inj h) (by simp)
      | some w =>
        rw [hwc] at h
        simp only [] at h
        obtain ⟨r, har, hrb, hrt, hrd⟩ := map_triple_inv _ _ _ _ h
        obtain ⟨hy, hwd, hpos, hle⟩ := wall_final_y _ _ _ _ _ hwc
          (wall_cfg_normal _ _) _ _ _ har
        subst hrt
        subst hrd
        rw [hwd] at *
        exact ⟨hpos, hle, by linarith, Or.inl hy⟩
    | some p =>
      rw [hpc] at h
      cases hwc : wall_candidate move_dist ball_tf.translation.xy ball.movement_dir
          (wall_cfg ball.movement_dir.y (ball_tf.scale.x / 2)) with
      | none =>
        rw [hwc] at h
        simp only [] at h
        obtain ⟨r, har, hrb, hrt, hrd⟩ := map_triple_inv _ _ _ _ h
        obtain ⟨hx, hpd, hpos, hle⟩ := paddle_final_x _ _ _ _ _ hpc
          (paddle_cfg_normal _ _ _) _ _ _ har
        subst hrt
        subst hrd
        rw [hpd] at *
        exact ⟨hpos, hle, by linarith, Or.inr ⟨hb, rfl, hx⟩⟩
      | some w =>
        rw [hwc] at h
        simp only [] at h
        by_cases h1 : p.dist < w.dist
        · rw [if_pos h1] at h
          obtain ⟨r, har, hrb, hrt, hrd⟩ := map_triple_inv _ _ _ _ h
          obtain ⟨hx, hpd, hpos, hle⟩ := paddle_final_x _ _ _ _ _ hpc
            (paddle_cfg_normal _ _ _) _ _ _ har
          subst hrt
          subst hrd
          rw [hpd] at *
          exact ⟨hpos, hle, by linarith, Or.inr ⟨hb, rfl, hx⟩⟩
        · rw [if_neg h1] at h
          by_cases h2 : w.dist < p.dist
          · rw [if_pos h2] at h
            obtain ⟨r, har, hrb, hrt, hrd⟩ := map_triple_inv _ _ _ _ h
            obtain ⟨hy, hwd, hpos, hle⟩ := wall_final_y _ _ _ _ _ hwc
              (wall_cfg_normal _ _) _ _ _ har
            subst hrt
            subst hrd
            rw [hwd] at *
            exact ⟨hpos, hle, by linarith, Or.inl hy⟩
          · rw [if_neg h2] at h
            cases haw : apply_collision ball_tf.translation.xy ball.movement_dir
                ball ball_tf w with
            | none => rw [haw] at h; exact absurd h (by simp)
            | some rw1 =>
              obtain ⟨b1, t1, d1⟩ := rw1
              rw [haw] at h
              simp only [] at h
              obtain ⟨r, har, hrb, hrt, hrd⟩ := map_triple_inv _ _ _ _ h
              obtain ⟨hx, hpd, hpos, hle⟩ := paddle_final_x _ _ _ _ _ hpc
                (paddle_cfg_normal _ _ _) _ _ _ har
              subst hrt
              subst hrd
              rw [hpd] at *
              exact ⟨hpos, hle, by linarith, Or.inr ⟨hb, rfl, hx⟩⟩

/-- A Player2 paddle far out of reach (plane `x = 99`). -/
def far_paddle : PaddleEntry :=
  (⟨PlayerId.Player2, MoveDirection.None⟩, ⟨⟨100, 50, 0⟩, 0, ⟨1, 1, 0⟩⟩)

/-- A concrete ball heading up-right along `(1, 1)`. -/
def wall_ball : Ball := ⟨⟨1, 1⟩, false, CurveState.default⟩

/-- A concrete ball transform at the arena center with zero scale. -/
def wall_tf : Transform := ⟨⟨0, 0, 0⟩, 0, ⟨0, 0, 0⟩⟩

/-- Witness for C2: from the center along `(1, 1)` with budget 5, the top
wall at `y = 9/2` is hit after distance `9/2`; the consumed distance is
within budget and the final position lies exactly on the wall plane. -/
theorem c2_no_tunneling_witness :
    ∃ b' tf',
      collide_once 5 wall_ball wall_tf [far_paddle] = some (b', tf', some (9 / 2)) ∧
      (EPS < (9 : ℚ) / 2 ∧ (9 : ℚ) / 2 ≤ 5 ∧ (0 : ℚ) ≤ 5 - 9 / 2 ∧
        (tf'.translation.y =
            (wall_cfg wall_ball.movement_dir.y (wall_tf.scale.x / 2)).1.y ∨
          ∃ hb, from_query [far_paddle] (ball_side wall_ball.movement_dir.x) =
              some hb ∧
            tf'.translation.x = (paddle_cfg (ball_side wall_ball.movement_dir.x) hb
              (wall_tf.scale.x / 2)).origin.x)) := by
  have hq : from_query [far_paddle] (ball_side wall_ball.movement_dir.x) =
      some far_paddle := by
    norm_num [from_query, ball_side, wall_ball, far_paddle]
  have hcfg : paddle_cfg (ball_side wall_ball.movement_dir.x) far_paddle
      (wall_tf.scale.x / 2) = ⟨⟨99, 50⟩, ⟨-1, 0⟩, 99 / 2, 101 / 2, CurveDir.None⟩ := by
    norm_num [paddle_cfg, ball_side, wall_ball, far_paddle, wall_tf,
      plane_origin, bot_y, top_y, movement_dir, paddle_spin, Vec3.xy,
      Vec2.add_def, Vec2.sub_def]
  have hpc : paddle_candidate 5 wall_tf.translation.xy wall_ball.movement_dir
      (paddle_cfg (ball_side wall_ball.movement_dir.x) far_paddle
        (wall_tf.scale.x / 2)) = none := by
    rw [hcfg]
    have hip : intersect_plane wall_tf.translation.xy wall_ball.movement_dir
        ⟨99, 50⟩ ⟨-1, 0⟩ = some 99 := by
      norm_num [intersect_plane, wall_tf, wall_ball, Vec3.xy, Vec2.dot,
        Vec2.sub_def, EPS]
    unfold paddle_candidate
    rw [hip]
    norm_num
  have hwcfg : wall_cfg wall_ball.movement_dir.y (wall_tf.scale.x / 2) =
      (⟨0, 9 / 2⟩, ⟨0, -1⟩) := by
    norm_num [wall_cfg, wall_ball, wall_tf, ARENA_HEIGHT]
  have hwc : wall_candidate 5 wall_tf.translation.xy wall_ball.movement_dir
      (wall_cfg wall_ball.movement_dir.y (wall_tf.scale.x / 2)) =
      some ⟨9 / 2, ⟨0, -1⟩, none, none⟩ := by
    rw [hwcfg]
    have hiw : intersect_plane wall_tf.translation.xy wall_ball.movement_dir
        ⟨0, 9 / 2⟩ ⟨0, -1⟩ = some (9 / 2) := by
      norm_num [intersect_plane, wall_tf, wall_ball, Vec3.xy, Vec2.dot,
        Vec2.sub_def, EPS]
    unfold wall_candidate
    rw [hiw]
    norm_num
  have hcoll : collide_once 5 wall_ball wall_tf [far_paddle] =
      some (⟨⟨1, -1⟩, false, CurveState.default⟩,
        ⟨⟨9 / 2, 9 / 2, 0⟩, 0, ⟨0, 0, 0⟩⟩, some (9 / 2)) := by
    unfold collide_once
    simp only []
    rw [hq]
    simp only []
    rw [hpc, hwc]
    simp only []
    rw [apply_collision_no_spin _ _ _ _ _ rfl]
    simp only [Option.map_some', Option.getD_none]
    norm_num [wall_ball, wall_tf, Vec2.reflect, Vec2.dot, Vec2.sub_def,
      Vec2.smul_def, get_point, Vec2.add_def, Vec3.xy]
  exact ⟨_, _, hcoll, c2_no_tunneling 5 wall_ball wall_tf [far_paddle] _ _ _ hcoll⟩

end Pong
